import Mathlib

/-!
Verification of the CEC command-queue engine of the vdr-plugin-cecremote
repository. The definitions below are a shallow embedding of the C++ source
(`cmd.cc`, `cecremote.cc`, `cmd.h`, `cecremote.h`): member functions become
Lean functions with the object state passed and returned explicitly, the
libCEC adapter becomes a record of query functions, and every bus call made
by an operation is recorded in an explicit query trace so that theorems can
speak about which adapter calls happen.
-/

namespace cecplugin

/-- Sentinel logical address `CECDEVICE_UNKNOWN` (libCEC value -1). -/
def CECDEVICE_UNKNOWN : Int := -1

/-- Power status constant `CEC_POWER_STATUS_ON` (libCEC value 0). -/
def CEC_POWER_STATUS_ON : Int := 0

/-- Power status constant `CEC_POWER_STATUS_STANDBY` (libCEC value 1). -/
def CEC_POWER_STATUS_STANDBY : Int := 1

/-- Power status constant `CEC_POWER_STATUS_UNKNOWN` (libCEC value 0x99). -/
def CEC_POWER_STATUS_UNKNOWN : Int := 0x99

/-- Constant `CEC_USER_CONTROL_CODE_MAX` from libCEC cectypes.h. -/
def CEC_USER_CONTROL_CODE_MAX : Int := 0x76

/-- Device descriptor `cCECDevice` (cmd.h): physical HDMI address (0 = unset),
configured logical address, and the runtime-resolved logical address cache. -/
structure cCECDevice where
  mPhysicalAddress : Nat
  mLogicalAddressDefined : Int
  mLogicalAddressUsed : Int
deriving DecidableEq, Repr

/-- Default-constructed `cCECDevice` (phys 0, both logical addresses unknown). -/
def cCECDevice.init : cCECDevice :=
  ⟨0, CECDEVICE_UNKNOWN, CECDEVICE_UNKNOWN⟩

/-- Command kind enumeration `CECCommand` (cmd.h). -/
inductive CECCommand where
  | CEC_INVALID
  | CEC_EXIT
  | CEC_KEYRPRESS
  | CEC_MAKEACTIVE
  | CEC_MAKEINACTIVE
  | CEC_POWERON
  | CEC_POWEROFF
  | CEC_VDRKEYPRESS
  | CEC_EXECSHELL
  | CEC_EXECTOGGLE
  | CEC_TEXTVIEWON
  | CEC_RECONNECT
  | CEC_CONNECT
  | CEC_DISCONNECT
  | CEC_COMMAND
deriving DecidableEq, Repr

/-- Command value type `cCmd` (cmd.h). The two toggle sub-queues
(`mPoweron`, `mPoweroff`, used only by the CEC_EXECTOGGLE dispatch case,
which no modelled operation reaches) are omitted; all scalar fields are kept
with the defaults given by the in-class initializers. -/
structure cCmd where
  mCmd : CECCommand
  mVal : Int
  mDevice : cCECDevice
  mExec : String
  mSerial : Int
  mCecOpcode : Int
  mCecLogicalAddress : Int
deriving DecidableEq, Repr

/-- Constructor `cCmd::cCmd(CECCommand, int, cCECDevice*, std::string)`
(cmd.cc): copies the device only when a pointer is passed; `mSerial` keeps
its in-class default -1. -/
def cCmd.mk4 (cmd : CECCommand) (val : Int) (dev : Option cCECDevice) (ex : String) : cCmd :=
  ⟨cmd, val, dev.getD cCECDevice.init, ex, -1, 0, CECDEVICE_UNKNOWN⟩

/-- Constructor `cCmd::cCmd(CECCommand, cec_opcode, cec_logical_address)`
(cmd.cc). -/
def cCmd.mkOpcode (cmd : CECCommand) (opcode : Int) (logicaladdress : Int) : cCmd :=
  ⟨cmd, -1, cCECDevice.init, "", -1, opcode, logicaladdress⟩

/-- Method `cCmd::getSerial` (cmd.cc lines 73-85). The static lock-guarded
process-wide counter (initially 1) is passed explicitly and the pair
(returned serial, updated counter) is produced; the lock makes the whole
body atomic, so one call is one step. The source body never reads the
mSerial field of the command; the command argument is kept only to mirror
the member-function signature. -/
def getSerial (_cmd : cCmd) (serial : Int) : Int × Int :=
  let s := serial + 1
  let s2 := if s > 10000 then 1 else s
  (s2, s2)

/-- Initial value of the static counter in `cCmd::getSerial`. -/
def serialCounterInit : Int := 1

/-- Operations that mutate the worker queue `mWorkerQueue`: `PushCmd`
appends one command to the back (push_back, cecremote.cc lines 937-945),
`PushCmdQueue` appends a whole list in order (lines 912-926, connected
case), and `WaitCmd` removes the front element when the queue is nonempty
(lines 1005-1022; on an empty queue WaitCmd blocks, so a pop step on an
empty queue leaves the state unchanged). -/
inductive QOp where
  | pushCmd (c : cCmd)
  | pushCmdQueue (cs : List cCmd)
  | waitCmd
deriving DecidableEq, Repr

/-- State of a worker-queue run: the pending queue contents together with
the sequence of commands already popped (dispatched), in pop order. -/
structure QueueRun where
  queue : List cCmd
  dispatched : List cCmd
deriving DecidableEq, Repr

/-- One queue operation, following the source semantics of PushCmd,
PushCmdQueue and WaitCmd given above. -/
def stepQ (st : QueueRun) : QOp → QueueRun
  | QOp.pushCmd c => ⟨st.queue ++ [c], st.dispatched⟩
  | QOp.pushCmdQueue cs => ⟨st.queue ++ cs, st.dispatched⟩
  | QOp.waitCmd =>
    match st.queue with
    | [] => st
    | c :: rest => ⟨rest, st.dispatched ++ [c]⟩

/-- Run a sequence of queue operations from the empty queue. -/
def runOps (ops : List QOp) : QueueRun :=
  ops.foldl stepQ ⟨[], []⟩

/-- The commands submitted by a sequence of queue operations, in
submission order. -/
def submitted : List QOp → List cCmd
  | [] => []
  | QOp.pushCmd c :: rest => c :: submitted rest
  | QOp.pushCmdQueue cs :: rest => cs ++ submitted rest
  | QOp.waitCmd :: rest => submitted rest

/-- Observable worker-loop state for the completion protocol: the published
last-completed serial `mProcessedSerial` (initially -1, cecremote.h), the
number of `mCmdReady.Signal()` calls, and the number of dispatch failures
that were logged (Esyslog branches of the dispatch switch). -/
structure WorkerState where
  mProcessedSerial : Int
  signalCount : Nat
  failuresLogged : Nat
deriving DecidableEq, Repr

/-- Initial worker state: `mProcessedSerial` starts at -1. -/
def initialWorkerState : WorkerState :=
  ⟨-1, 0, 0⟩

/-- Serial-publication epilogue shared by `cCECRemote::Action` (cecremote.cc
lines 371-375) and `cCECRemote::Exec` (lines 859-863): after the dispatch
switch, when the serial is not the sentinel -1, publish it and signal. -/
def publishSerial (cmd : cCmd) (st : WorkerState) : WorkerState :=
  if cmd.mSerial ≠ -1 then
    ⟨cmd.mSerial, st.signalCount + 1, st.failuresLogged⟩
  else
    st

/-- One iteration of the worker loop body for one popped command: the
dispatch switch runs the action, whose bus-level outcome is given by the
environment function `outcome` (a failed action only logs an error and is
not escalated), and then the publication epilogue runs unconditionally. -/
def workerStep (outcome : cCmd → Bool) (cmd : cCmd) (st : WorkerState) : WorkerState :=
  let st1 :=
    if outcome cmd then st
    else ⟨st.mProcessedSerial, st.signalCount, st.failuresLogged + 1⟩
  publishSerial cmd st1

/-- The worker loop of `cCECRemote::Action` processing a list of popped
commands in order. -/
def runWorker (outcome : cCmd → Bool) (cmds : List cCmd) (st : WorkerState) : WorkerState :=
  cmds.foldl (fun s c => workerStep outcome c s) st

/-- Severity of a log line: Esyslog, Isyslog, Dsyslog (ceclog.h). -/
inductive LogLevel where
  | error
  | info
  | debug
deriving DecidableEq, Repr

/-- One log line: severity and message text. -/
abbrev LogMsg := LogLevel × String

/-- The libCEC adapter (`ICECAdapter`) as a record of pure query/effect
functions standing for the bus environment: membership of each logical
slot in GetActiveDevices, GetDevicePhysicalAddress per slot,
GetLogicalAddresses membership (addresses owned by the VDR itself),
PollDevice success, GetDevicePowerStatus (indexed by the poll count, since
the status may change while the worker polls), and the boolean results of
PowerOnDevices and StandbyDevices. -/
structure Adapter where
  active : Nat → Bool
  physAddrOf : Nat → Nat
  ownAddr : Int → Bool
  pollOk : Int → Bool
  powerStatusAt : Nat → Int → Int
  powerOnOk : Int → Bool
  standbyOk : Int → Bool

/-- Engine state of `cCECRemote` relevant to queueing and connection:
the adapter handle, the detected-device count, the two command queues,
the inside-exec flag and the deferred-startup flag. -/
structure RemoteState where
  mCECAdapter : Option Adapter
  mDevicesFound : Nat
  mWorkerQueue : List cCmd
  mExecQueue : List cCmd
  mInExec : Bool
  mDeferredStartup : Bool

/-- Method `cCECRemote::PushCmd` (cecremote.cc lines 937-945): push_back on
the worker queue with no connectivity check. -/
def PushCmd (st : RemoteState) (cmd : cCmd) : RemoteState :=
  { st with mWorkerQueue := st.mWorkerQueue ++ [cmd] }

/-- Method `cCECRemote::PushCmdQueue` (cecremote.cc lines 912-926): when the
adapter handle is null, log an error and return without touching the queue;
otherwise append the whole list in order. The produced log lines are
returned alongside the new state. -/
def PushCmdQueue (st : RemoteState) (cmdList : List cCmd) : RemoteState × List LogMsg :=
  if st.mCECAdapter.isNone then
    (st, [(LogLevel.error, "PushCmdQueue CEC Adapter disconnected")])
  else
    ({ st with mWorkerQueue := st.mWorkerQueue ++ cmdList }, [])

/-- Routing part of `cCECRemote::PushWaitCmd` (cecremote.cc lines 957-982):
allocate a serial (stored into the command), then push to the exec queue
when the command is CEC_CONNECT or CEC_DISCONNECT and the engine is inside
exec, else push to the worker queue. The subsequent condition-variable wait
loop only reads state and is not modelled. Returns the new engine state,
the command as enqueued, and the updated serial counter. -/
def PushWaitCmd (st : RemoteState) (cmd : cCmd) (counter : Int) :
    RemoteState × cCmd × Int :=
  let p := getSerial cmd counter
  let cmd2 := { cmd with mSerial := p.1 }
  if (cmd2.mCmd = CECCommand.CEC_CONNECT ∨ cmd2.mCmd = CECCommand.CEC_DISCONNECT) ∧
      st.mInExec then
    ({ st with mExecQueue := st.mExecQueue ++ [cmd2] }, cmd2, p.2)
  else
    ({ st with mWorkerQueue := st.mWorkerQueue ++ [cmd2] }, cmd2, p.2)

/-- Method `cCECRemote::Reconnect` (cecremote.cc lines 1031-1048): construct
a CEC_RECONNECT command and push_front it onto the exec queue when inside
exec, else push_front onto the worker queue. No adapter call is made. -/
def Reconnect (st : RemoteState) : RemoteState :=
  let cmd := cCmd.mk4 CECCommand.CEC_RECONNECT (-1) none ""
  if st.mInExec then
    { st with mExecQueue := cmd :: st.mExecQueue }
  else
    { st with mWorkerQueue := cmd :: st.mWorkerQueue }

/-- Alert kinds of the libCEC alert callback (libcec_alert). -/
inductive LibcecAlert where
  | connectionLost
  | tvPollFailed
  | serviceDevice
  | permissionError
  | portBusy
  | physicalAddressError
deriving DecidableEq, Repr

/-- Callback `CecAlertCallback` (cecremote.cc lines 100-129): on
CEC_ALERT_CONNECTION_LOST it calls Reconnect (which only enqueues a
command); every other alert kind is logged and leaves the state unchanged. -/
def CecAlertCallback (type : LibcecAlert) (st : RemoteState) : RemoteState :=
  match type with
  | LibcecAlert.connectionLost => Reconnect st
  | _ => st

/-- Callback `CecKeyPressCallback` (cecremote.cc lines 44-62): filters by
key-code range and duplicate suppression against the static lastkey (passed
explicitly), then constructs a CEC_KEYRPRESS command and calls PushCmd.
Returns the new state and the new lastkey value. -/
def CecKeyPressCallback (lastkey : Int) (keycode duration : Int) (st : RemoteState) :
    RemoteState × Int :=
  if 0 ≤ keycode ∧ keycode ≤ CEC_USER_CONTROL_CODE_MAX ∧
      (duration = 0 ∨ keycode ≠ lastkey) then
    (PushCmd st (cCmd.mk4 CECCommand.CEC_KEYRPRESS keycode none ""), keycode)
  else
    (st, lastkey)

/-- Callback `CecCommandCallback` (cecremote.cc lines 74-87): ignored when
the adapter handle is null, else constructs a CEC_COMMAND command and calls
PushCmd. -/
def CecCommandCallback (opcode initiator : Int) (st : RemoteState) : RemoteState :=
  if st.mCECAdapter.isNone then
    st
  else
    PushCmd st (cCmd.mkOpcode CECCommand.CEC_COMMAND opcode initiator)

/-- Environment inputs for `cCECRemote::Connect`: result of LibCecInitialise,
the DetectAdapters count, the Open result, the manual-start flag of the
plugin and the configured startup command lists. -/
structure ConnectEnv where
  libInit : Option Adapter
  devicesFound : Int
  openOk : Bool
  startManually : Bool
  onManualStart : List cCmd
  onStart : List cCmd

/-- Method `cCECRemote::Connect` (cecremote.cc lines 447-559): if already
connected, log and return with the state unchanged; else initialize libCEC,
detect and open the adapter (each failure resets the handle to null), and
on success perform the deferred-startup collapse of `cCECRemote::Startup`
(lines 419-436): push the manual-start queue (when the plugin started
manually) and then the on-start queue onto the worker queue. -/
def Connect (env : ConnectEnv) (st : RemoteState) : RemoteState × List LogMsg :=
  if st.mCECAdapter.isSome then
    (st, [(LogLevel.debug, "cCECRemote::Connect"), (LogLevel.debug, "Ignore Connect")])
  else
    match env.libInit with
    | none =>
      (st, [(LogLevel.debug, "cCECRemote::Connect"), (LogLevel.error, "Can not initialize libcec")])
    | some a =>
      if env.devicesFound ≤ 0 then
        ({ st with mCECAdapter := none, mDevicesFound := 0 },
          [(LogLevel.debug, "cCECRemote::Connect"), (LogLevel.error, "No adapter found")])
      else if ¬ env.openOk then
        ({ st with mCECAdapter := none, mDevicesFound := 0 },
          [(LogLevel.debug, "cCECRemote::Connect"), (LogLevel.error, "Unable to open the device")])
      else
        let st1 := { st with mCECAdapter := some a, mDevicesFound := env.devicesFound.toNat }
        if st1.mDeferredStartup then
          let st2 := { st1 with mDeferredStartup := false }
          let st3 :=
            if env.startManually then
              { st2 with mWorkerQueue := st2.mWorkerQueue ++ env.onManualStart }
            else
              st2
          ({ st3 with mWorkerQueue := st3.mWorkerQueue ++ env.onStart },
            [(LogLevel.debug, "cCECRemote::Connect")])
        else
          (st1, [(LogLevel.debug, "cCECRemote::Connect")])

/-- Method `cCECRemote::Disconnect` (cecremote.cc lines 567-576): when an
adapter is present, SetInactiveView/Close/UnloadLibCec act on the handle
only; in every case the handle is then set to null and a debug line is
logged. No error is ever produced. -/
def Disconnect (st : RemoteState) : RemoteState × List LogMsg :=
  ({ st with mCECAdapter := none }, [(LogLevel.debug, "cCECRemote::Disconnect")])


/-- Bus queries issued through the adapter handle, recorded as a trace. -/
inductive BusQuery where
  | getActiveDevices
  | getDevicePhysicalAddress (j : Nat)
  | getLogicalAddresses
  | pollDevice (a : Int)
  | getDevicePowerStatus (a : Int)
  | powerOnDevices (a : Int)
deriving DecidableEq, Repr

/-- State threaded through the 16-slot scan loop of `cCECRemote::getLogical`
(cecremote.cc lines 720-740): the early exact-match return value, the local
variable `found`, the current value of the mLogicalAddressUsed field being
mutated, the accumulated bus-query trace, and (as pure instrumentation not
present in the source) the list of loop indices examined so far. -/
structure ScanState where
  ret : Option Int
  found : Int
  used : Int
  queries : List BusQuery
  visited : List Nat
deriving Repr

/-- The body of the for-loop of `cCECRemote::getLogical` over the given
slot indices: a slot is examined only if GetActiveDevices marks it active,
its physical address is then queried and compared against the target; on a
match the mLogicalAddressUsed field and `found` are overwritten, and when
the configured logical address equals the slot the loop returns
immediately. -/
def scanSlots (a : Adapter) (phys : Nat) (defined : Int) :
    List Nat → ScanState → ScanState
  | [], st => st
  | j :: rest, st =>
    let st1 := { st with visited := st.visited ++ [j] }
    if a.active j then
      let st2 := { st1 with queries := st1.queries ++ [BusQuery.getDevicePhysicalAddress j] }
      if phys = a.physAddrOf j then
        let st3 := { st2 with used := (j : Int), found := (j : Int) }
        if defined = (j : Int) then
          { st3 with ret := some (j : Int) }
        else
          scanSlots a phys defined rest st3
      else
        scanSlots a phys defined rest st2
    else
      scanSlots a phys defined rest st1

/-- The 16 logical slots 0..15 scanned by getLogical. -/
def slots16 : List Nat := List.range 16

/-- Result of `cCECRemote::getLogical`: the returned logical address, the
device descriptor after its mLogicalAddressUsed mutation, the bus-query
trace, and the instrumented list of scanned slot indices. -/
structure ResolveResult where
  addr : Int
  dev : cCECDevice
  queries : List BusQuery
  visited : List Nat
deriving Repr

/-- The tail of `cCECRemote::getLogical` after the physical scan (cecremote.cc
lines 741-766): return the early exact match if any, else the `found`
fallback if any, else fall back to the configured logical address after the
own-address check and a point-to-point poll. -/
def getLogicalPost (a : Adapter) (dev : cCECDevice) (st : ScanState) : ResolveResult :=
  match st.ret with
  | some r => ⟨r, { dev with mLogicalAddressUsed := st.used }, st.queries, st.visited⟩
  | none =>
    let dev2 := { dev with mLogicalAddressUsed := st.used }
    if st.found ≠ CECDEVICE_UNKNOWN then
      ⟨st.found, dev2, st.queries, st.visited⟩
    else if dev.mLogicalAddressDefined = CECDEVICE_UNKNOWN then
      ⟨CECDEVICE_UNKNOWN, dev2, st.queries, st.visited⟩
    else if a.ownAddr dev.mLogicalAddressDefined then
      ⟨CECDEVICE_UNKNOWN, dev2, st.queries ++ [BusQuery.getLogicalAddresses], st.visited⟩
    else if ¬ a.pollOk dev.mLogicalAddressDefined then
      ⟨CECDEVICE_UNKNOWN, dev2,
        st.queries ++ [BusQuery.getLogicalAddresses,
          BusQuery.pollDevice dev.mLogicalAddressDefined], st.visited⟩
    else
      ⟨dev.mLogicalAddressDefined,
        { dev2 with mLogicalAddressUsed := dev.mLogicalAddressDefined },
        st.queries ++ [BusQuery.getLogicalAddresses,
          BusQuery.pollDevice dev.mLogicalAddressDefined], st.visited⟩

/-- Method `cCECRemote::getLogical` (cecremote.cc lines 706-766): null
adapter gives the unknown sentinel; a cached mLogicalAddressUsed is
returned as is with no bus query; otherwise, with a non-zero physical
address, GetActiveDevices is queried and the 16 slots are scanned, and the
post-scan fallback chain runs. -/
def getLogical (adapter : Option Adapter) (dev : cCECDevice) : ResolveResult :=
  match adapter with
  | none => ⟨CECDEVICE_UNKNOWN, dev, [], []⟩
  | some a =>
    if dev.mLogicalAddressUsed ≠ CECDEVICE_UNKNOWN then
      ⟨dev.mLogicalAddressUsed, dev, [], []⟩
    else
      getLogicalPost a dev
        (if dev.mPhysicalAddress ≠ 0 then
          scanSlots a dev.mPhysicalAddress dev.mLogicalAddressDefined slots16
            ⟨none, CECDEVICE_UNKNOWN, dev.mLogicalAddressUsed,
              [BusQuery.getActiveDevices], []⟩
        else
          ⟨none, CECDEVICE_UNKNOWN, dev.mLogicalAddressUsed, [], []⟩)

/-- The do-while loop of `cCECRemote::WaitForPowerStatus` (cecremote.cc
lines 778-789), with the 50-iteration bound as fuel and the attempt counter
`cnt` made explicit; returns the trace of GetDevicePowerStatus queries. -/
def waitForPowerStatusAux (a : Adapter) (addr newstatus : Int) :
    Nat → Nat → List BusQuery
  | 0, _ => []
  | Nat.succ fuel, cnt =>
    let status := a.powerStatusAt cnt addr
    let cnt2 := cnt + 1
    if status ≠ newstatus ∧ cnt2 < 50 ∧ status ≠ CEC_POWER_STATUS_UNKNOWN then
      BusQuery.getDevicePowerStatus addr :: waitForPowerStatusAux a addr newstatus fuel cnt2
    else
      [BusQuery.getDevicePowerStatus addr]

/-- Method `cCECRemote::WaitForPowerStatus`: poll the power status until the
expected status is read, the status reads unknown, or 50 attempts elapse. -/
def WaitForPowerStatus (a : Adapter) (addr newstatus : Int) : List BusQuery :=
  waitForPowerStatusAux a addr newstatus 50 0

/-- Result of one dispatch-switch case: the device descriptor after any
resolution-cache mutation, the bus-query trace, and the produced log lines. -/
structure ActionResult where
  dev : cCECDevice
  queries : List BusQuery
  logs : List LogMsg
deriving Repr

/-- The CEC_POWERON case of the dispatch switch in `cCECRemote::Action`
(cecremote.cc lines 258-274). The source condition is
`(addr != CECDEVICE_UNKNOWN) && (!mCECAdapter->PowerOnDevices(addr))` with
C++ short-circuit evaluation, so PowerOnDevices is called exactly when the
resolved address is not the unknown sentinel; in every other outcome -
including an unresolved address - control reaches the else branch and
WaitForPowerStatus(addr, CEC_POWER_STATUS_ON) runs. -/
def actionPowerOn (adapter : Option Adapter) (cmd : cCmd) : ActionResult :=
  match adapter with
  | none => ⟨cmd.mDevice, [], [(LogLevel.error, "PowerOnDevice ignored")]⟩
  | some a =>
    let r := getLogical (some a) cmd.mDevice
    if r.addr ≠ CECDEVICE_UNKNOWN then
      if ¬ a.powerOnOk r.addr then
        ⟨r.dev, r.queries ++ [BusQuery.powerOnDevices r.addr],
          [(LogLevel.info, "Power on"), (LogLevel.error, "PowerOnDevice failed")]⟩
      else
        ⟨r.dev, r.queries ++ [BusQuery.powerOnDevices r.addr] ++
            WaitForPowerStatus a r.addr CEC_POWER_STATUS_ON,
          [(LogLevel.info, "Power on")]⟩
    else
      ⟨r.dev, r.queries ++ WaitForPowerStatus a r.addr CEC_POWER_STATUS_ON,
        [(LogLevel.info, "Power on")]⟩

/-- A simulated bus of 16 slots, all inactive: every query answers false,
zero, or CEC_POWER_STATUS_UNKNOWN. -/
def emptyBusAdapter : Adapter :=
  ⟨fun _ => false, fun _ => 0, fun _ => false, fun _ => false,
    fun _ _ => CEC_POWER_STATUS_UNKNOWN, fun _ => false, fun _ => false⟩

/-- Device descriptor deviceA of the unresolved power-on scenario: physical
address 0x1000, no configured logical address, resolution cache unset. -/
def deviceA : cCECDevice := ⟨0x1000, CECDEVICE_UNKNOWN, CECDEVICE_UNKNOWN⟩

/-- The power-on command targeting deviceA. -/
def powerOnCmdA : cCmd := cCmd.mk4 CECCommand.CEC_POWERON (-1) (some deviceA) ""

/-- Per-slot update of the `found` local variable of the getLogical scan:
overwritten by each active slot whose physical address matches. -/
def lastMatchFold (a : Adapter) (phys : Nat) (js : List Nat) (acc : Int) : Int :=
  js.foldl (fun r j => if a.active j ∧ phys = a.physAddrOf j then (j : Int) else r) acc

/-- The GetDevicePhysicalAddress queries the scan issues for the given slot
indices: one per active slot, in slot order. -/
def physQueries (a : Adapter) (js : List Nat) : List BusQuery :=
  (js.filter (fun j => a.active j)).map BusQuery.getDevicePhysicalAddress

/-- A concrete engine state: disconnected, one CEC_EXIT command already
queued on the worker queue, not inside exec. -/
def stAlert : RemoteState :=
  ⟨none, 0, [cCmd.mk4 CECCommand.CEC_EXIT (-1) none ""], [], false, false⟩

/-- A concrete engine state holding a connected adapter handle. -/
def stConn : RemoteState :=
  ⟨some emptyBusAdapter, 1, [], [], false, false⟩

/-- A concrete engine state inside exec-shell handling. -/
def stExec : RemoteState :=
  ⟨none, 0, [], [], true, false⟩

/-- A connect environment in which every initialization step fails. -/
def envNone : ConnectEnv :=
  ⟨none, 0, false, false, [], []⟩

/-- A concrete bus with two active slots 3 and 5 sharing physical address
0x2000; slot 5 will be an exact match for a device configured with logical
address 5, slot 3 only a fallback. -/
def busTwoMatches : Adapter :=
  ⟨fun j => j == 3 || j == 5,
    fun j => if j == 3 || j == 5 then 0x2000 else 0,
    fun _ => false, fun _ => false,
    fun _ _ => CEC_POWER_STATUS_UNKNOWN, fun _ => false, fun _ => false⟩

/-- A device at physical address 0x2000 with configured logical address 5
and an unset resolution cache. -/
def devExact : cCECDevice := ⟨0x2000, 5, CECDEVICE_UNKNOWN⟩

/-! ## Theorems -/

theorem foldl_stepQ_inv (ops : List QOp) :
    ∀ st : QueueRun,
      (ops.foldl stepQ st).dispatched ++ (ops.foldl stepQ st).queue =
        st.dispatched ++ st.queue ++ submitted ops := by
  induction ops with
  | nil => intro st; simp [submitted]
  | cons op rest ih =>
    intro st
    cases op with
    | pushCmd c =>
      simp only [List.foldl_cons, stepQ, submitted]
      rw [ih]
      simp
    | pushCmdQueue cs =>
      simp only [List.foldl_cons, stepQ, submitted]
      rw [ih]
      simp
    | waitCmd =>
      simp only [List.foldl_cons, submitted]
      cases hq : st.queue with
      | nil =>
        have hst : stepQ st QOp.waitCmd = st := by
          simp [stepQ, hq]
        rw [hst, ih, hq]
      | cons c restq =>
        have hst : stepQ st QOp.waitCmd = ⟨restq, st.dispatched ++ [c]⟩ := by
          simp [stepQ, hq]
        rw [hst, ih]
        simp [hq]

/-- C4: for every sequence of submit-async operations (PushCmd,
PushCmdQueue) interleaved with worker pops (WaitCmd), the dispatched
commands followed by the still-pending queue are exactly the submitted
commands in submission order; hence the worker dispatches commands of one
queue in precisely their arrival (FIFO) order. -/
theorem worker_queue_fifo_order (ops : List QOp) :
    (runOps ops).dispatched ++ (runOps ops).queue = submitted ops := by
  have h := foldl_stepQ_inv ops ⟨[], []⟩
  simpa [runOps] using h

/-- Counterexample to C2: a command whose serial field is already assigned
(mSerial = 5) does not get its existing serial back from getSerial; with
the counter at its initial value 1 the call returns 2. The source body of
cCmd::getSerial never consults the mSerial field. -/
theorem getSerial_ignores_assigned_serial :
    (getSerial ⟨CECCommand.CEC_CONNECT, -1, cCECDevice.init, "", 5, 0, -1⟩
        serialCounterInit).1 ≠ 5 := by
  decide

/-- C2 (amended): getSerial always allocates the next value from the single
lock-guarded process-wide counter, regardless of any serial already stored
in the command; starting from any counter value in 1..10000 the allocated
serial lies in 1..10000 (wrapping at the bound), the counter is left equal
to the allocated value, and the allocated value differs from the previous
counter value, so consecutive (lock-serialized) callers never observe the
same serial. -/
theorem getSerial_always_allocates_in_range (c : cCmd) (s : Int)
    (h1 : 1 ≤ s) (h2 : s ≤ 10000) :
    1 ≤ (getSerial c s).1 ∧ (getSerial c s).1 ≤ 10000 ∧
      (getSerial c s).2 = (getSerial c s).1 ∧ (getSerial c s).1 ≠ s := by
  simp only [getSerial]
  by_cases hgt : s + 1 > 10000
  · simp only [if_pos hgt]
    refine ⟨by norm_num, by norm_num, trivial, ?_⟩
    omega
  · simp only [if_neg hgt]
    refine ⟨by omega, by omega, trivial, by omega⟩

/-- Witness for C2 at the initial counter value: the hypotheses hold at
s = 1 and the allocated serial is in range and fresh. -/
theorem getSerial_always_allocates_in_range_witness :
    1 ≤ (getSerial (cCmd.mk4 CECCommand.CEC_CONNECT (-1) none "") 1).1 ∧
      (getSerial (cCmd.mk4 CECCommand.CEC_CONNECT (-1) none "") 1).1 ≤ 10000 ∧
      (getSerial (cCmd.mk4 CECCommand.CEC_CONNECT (-1) none "") 1).2 =
        (getSerial (cCmd.mk4 CECCommand.CEC_CONNECT (-1) none "") 1).1 ∧
      (getSerial (cCmd.mk4 CECCommand.CEC_CONNECT (-1) none "") 1).1 ≠ 1 :=
  getSerial_always_allocates_in_range
    (cCmd.mk4 CECCommand.CEC_CONNECT (-1) none "") 1 (by norm_num) (by norm_num)

theorem runWorker_processed_mem (outcome : cCmd → Bool) (cmds : List cCmd) :
    ∀ st : WorkerState,
      (runWorker outcome cmds st).mProcessedSerial = st.mProcessedSerial ∨
        (runWorker outcome cmds st).mProcessedSerial ∈ cmds.map cCmd.mSerial := by
  induction cmds with
  | nil => intro st; left; rfl
  | cons c rest ih =>
    intro st
    have hstep : runWorker outcome (c :: rest) st =
        runWorker outcome rest (workerStep outcome c st) := rfl
    rw [hstep]
    rcases ih (workerStep outcome c st) with h | h
    · rw [h]
      by_cases hs : c.mSerial ≠ -1
      · right
        have hps : (workerStep outcome c st).mProcessedSerial = c.mSerial := by
          by_cases ho : outcome c <;> simp [workerStep, publishSerial, hs, ho]
        rw [hps]
        simp
      · left
        have hps : (workerStep outcome c st).mProcessedSerial = st.mProcessedSerial := by
          by_cases ho : outcome c <;> simp [workerStep, publishSerial, hs, ho]
        rw [hps]
    · right
      simp only [List.map_cons, List.mem_cons]
      right
      exact h

/-- C3: (i) after dispatching any command whose serial is not -1, the worker
unconditionally sets the published last-completed serial to that serial and
signals the waiters, whatever the bus-level outcome of the dispatched
action was; (ii) conversely, at any point of a worker run started from the
initial state, the published serial equals S (for S distinct from the
initial sentinel -1) only if a command carrying serial S is among the
commands already popped and fully processed. -/
theorem worker_publishes_serial_unconditionally (outcome : cCmd → Bool)
    (cmds : List cCmd) (cmd : cCmd) (st : WorkerState) (n : Nat) (S : Int)
    (hserial : cmd.mSerial ≠ -1) (hS : S ≠ -1) :
    ((workerStep outcome cmd st).mProcessedSerial = cmd.mSerial ∧
        (workerStep outcome cmd st).signalCount = st.signalCount + 1) ∧
      ((runWorker outcome (cmds.take n) initialWorkerState).mProcessedSerial = S →
        S ∈ (cmds.take n).map cCmd.mSerial) := by
  constructor
  · constructor
    · by_cases ho : outcome cmd <;> simp [workerStep, publishSerial, hserial, ho]
    · by_cases ho : outcome cmd <;> simp [workerStep, publishSerial, hserial, ho]
  · intro hrun
    rcases runWorker_processed_mem outcome (cmds.take n) initialWorkerState with h | h
    · rw [hrun] at h
      simp [initialWorkerState] at h
      exact absurd h hS
    · rw [hrun] at h
      exact h

/-- Witness for C3: a command with serial 7, whose action fails, is
published as last completed with one signal, and a one-command run that
ends with published serial 7 indeed contains serial 7. -/
theorem worker_publishes_serial_unconditionally_witness :
    ((workerStep (fun _ => false) ⟨CECCommand.CEC_POWERON, -1, cCECDevice.init, "", 7, 0, -1⟩
          initialWorkerState).mProcessedSerial =
        (⟨CECCommand.CEC_POWERON, -1, cCECDevice.init, "", 7, 0, -1⟩ : cCmd).mSerial ∧
      (workerStep (fun _ => false) ⟨CECCommand.CEC_POWERON, -1, cCECDevice.init, "", 7, 0, -1⟩
          initialWorkerState).signalCount = initialWorkerState.signalCount + 1) ∧
    ((runWorker (fun _ => false)
          ([⟨CECCommand.CEC_POWERON, -1, cCECDevice.init, "", 7, 0, -1⟩].take 1)
          initialWorkerState).mProcessedSerial = 7 →
      (7 : Int) ∈ ([(⟨CECCommand.CEC_POWERON, -1, cCECDevice.init, "", 7, 0, -1⟩ : cCmd)].take 1).map
          cCmd.mSerial) :=
  worker_publishes_serial_unconditionally (fun _ => false)
    [⟨CECCommand.CEC_POWERON, -1, cCECDevice.init, "", 7, 0, -1⟩]
    ⟨CECCommand.CEC_POWERON, -1, cCECDevice.init, "", 7, 0, -1⟩
    initialWorkerState 1 7 (by decide) (by decide)

/-- Counterexample to C5: the connection-loss alert does not append the
reconnect command to the back of the normal queue; with one command already
queued, the queue after the callback is not the old queue with the
reconnect command appended (the source uses push_front). -/
theorem alert_callback_prepends_not_appends :
    (CecAlertCallback LibcecAlert.connectionLost stAlert).mWorkerQueue ≠
      stAlert.mWorkerQueue ++ [cCmd.mk4 CECCommand.CEC_RECONNECT (-1) none ""] := by
  decide

/-- C5 (amended): every asynchronous adapter-library callback either leaves
the engine state unchanged (log-only alerts, filtered key presses, command
callback while disconnected) or only constructs a command and enqueues it,
and never changes the adapter handle: the connection-loss alert enqueues a
CEC_RECONNECT command at the front of the normal queue (front of the
exec-reentrant queue when inside exec) for the single-threaded worker
dispatch path, and the key-press and inbound-command callbacks append their
command to the back of the normal queue. -/
theorem callbacks_only_enqueue_commands (st : RemoteState) (type : LibcecAlert)
    (lastkey keycode duration opcode initiator : Int) :
    ((CecAlertCallback type st).mCECAdapter = st.mCECAdapter ∧
      (type = LibcecAlert.connectionLost →
        (st.mInExec = false →
          CecAlertCallback type st =
            { st with mWorkerQueue :=
                cCmd.mk4 CECCommand.CEC_RECONNECT (-1) none "" :: st.mWorkerQueue }) ∧
        (st.mInExec = true →
          CecAlertCallback type st =
            { st with mExecQueue :=
                cCmd.mk4 CECCommand.CEC_RECONNECT (-1) none "" :: st.mExecQueue })) ∧
      (type ≠ LibcecAlert.connectionLost → CecAlertCallback type st = st)) ∧
    ((CecKeyPressCallback lastkey keycode duration st).1.mCECAdapter = st.mCECAdapter ∧
      ((CecKeyPressCallback lastkey keycode duration st).1 = st ∨
        (CecKeyPressCallback lastkey keycode duration st).1 =
          { st with mWorkerQueue :=
              st.mWorkerQueue ++ [cCmd.mk4 CECCommand.CEC_KEYRPRESS keycode none ""] })) ∧
    ((CecCommandCallback opcode initiator st).mCECAdapter = st.mCECAdapter ∧
      ((CecCommandCallback opcode initiator st) = st ∨
        (CecCommandCallback opcode initiator st) =
          { st with mWorkerQueue :=
              st.mWorkerQueue ++
                [cCmd.mkOpcode CECCommand.CEC_COMMAND opcode initiator] })) := by
  refine ⟨⟨?_, ?_, ?_⟩, ⟨?_, ?_⟩, ⟨?_, ?_⟩⟩
  · cases type <;> cases hex : st.mInExec <;>
      simp [CecAlertCallback, Reconnect, hex]
  · intro htype
    subst htype
    constructor
    · intro hex
      simp [CecAlertCallback, Reconnect, hex]
    · intro hex
      simp [CecAlertCallback, Reconnect, hex]
  · intro htype
    cases type <;> simp_all [CecAlertCallback]
  · by_cases hc : 0 ≤ keycode ∧ keycode ≤ CEC_USER_CONTROL_CODE_MAX ∧
      (duration = 0 ∨ keycode ≠ lastkey) <;>
      simp [CecKeyPressCallback, PushCmd, hc]
  · by_cases hc : 0 ≤ keycode ∧ keycode ≤ CEC_USER_CONTROL_CODE_MAX ∧
      (duration = 0 ∨ keycode ≠ lastkey)
    · right
      simp [CecKeyPressCallback, PushCmd, hc]
    · left
      simp [CecKeyPressCallback, PushCmd, hc]
  · by_cases hn : st.mCECAdapter.isNone <;>
      simp [CecCommandCallback, PushCmd, hn]
  · by_cases hn : st.mCECAdapter.isNone
    · left
      simp [CecCommandCallback, hn]
    · right
      simp [CecCommandCallback, PushCmd, hn]

/-- Witness for C5 at the connection-lost alert on a concrete disconnected
state outside exec: the reconnect command is placed at the front of the
worker queue. -/
theorem callbacks_only_enqueue_commands_witness :
    CecAlertCallback LibcecAlert.connectionLost stAlert =
      { stAlert with
          mWorkerQueue := cCmd.mk4 CECCommand.CEC_RECONNECT (-1) none "" :: stAlert.mWorkerQueue } :=
  ((callbacks_only_enqueue_commands stAlert LibcecAlert.connectionLost
      0 0 0 0 0).1.2.1 rfl).1 rfl

/-- C8: connect and disconnect are idempotent on connection state.
Dispatching Connect while an adapter handle exists returns with the state
unchanged (same handle, no duplicate) and produces no error log; and
dispatching Disconnect while already disconnected leaves the state
unchanged and produces no error log. -/
theorem connect_disconnect_idempotent (env : ConnectEnv) (st st2 : RemoteState)
    (a : Adapter) (h1 : st.mCECAdapter = some a) (h2 : st2.mCECAdapter = none) :
    (Connect env st).1 = st ∧
      (Connect env st).1.mCECAdapter = some a ∧
      (∀ l ∈ (Connect env st).2, l.1 ≠ LogLevel.error) ∧
      (Disconnect st2).1 = st2 ∧
      (∀ l ∈ (Disconnect st2).2, l.1 ≠ LogLevel.error) := by
  have hsome : st.mCECAdapter.isSome := by
    rw [h1]; rfl
  refine ⟨?_, ?_, ?_, ?_, ?_⟩
  · simp [Connect, hsome]
  · simp [Connect, hsome, h1]
  · simp [Connect, hsome]
  · cases st2 with
    | mk ad df wq eq ie ds =>
      simp at h2
      simp [Disconnect, h2]
  · simp [Disconnect]

/-- Witness for C8 on concrete states: a connected state with the empty-bus
adapter and a disconnected state. -/
theorem connect_disconnect_idempotent_witness :
    (Connect envNone stConn).1 = stConn ∧
      (Connect envNone stConn).1.mCECAdapter = some emptyBusAdapter ∧
      (∀ l ∈ (Connect envNone stConn).2, l.1 ≠ LogLevel.error) ∧
      (Disconnect stAlert).1 = stAlert ∧
      (∀ l ∈ (Disconnect stAlert).2, l.1 ≠ LogLevel.error) :=
  connect_disconnect_idempotent envNone stConn stAlert emptyBusAdapter rfl rfl

/-- C9: the synchronous submission path places the command on the
exec-reentrant queue exactly when the engine is inside exec and the command
kind is connect or disconnect; every other synchronous submission goes to
the normal worker queue. In both cases the command is enqueued carrying the
freshly allocated serial. -/
theorem pushWaitCmd_routing (st : RemoteState) (cmd : cCmd) (counter : Int) :
    ((st.mInExec = true ∧
        (cmd.mCmd = CECCommand.CEC_CONNECT ∨ cmd.mCmd = CECCommand.CEC_DISCONNECT)) →
      (PushWaitCmd st cmd counter).1.mExecQueue =
          st.mExecQueue ++ [{ cmd with mSerial := (getSerial cmd counter).1 }] ∧
        (PushWaitCmd st cmd counter).1.mWorkerQueue = st.mWorkerQueue) ∧
    (¬(st.mInExec = true ∧
        (cmd.mCmd = CECCommand.CEC_CONNECT ∨ cmd.mCmd = CECCommand.CEC_DISCONNECT)) →
      (PushWaitCmd st cmd counter).1.mWorkerQueue =
          st.mWorkerQueue ++ [{ cmd with mSerial := (getSerial cmd counter).1 }] ∧
        (PushWaitCmd st cmd counter).1.mExecQueue = st.mExecQueue) := by
  constructor
  · intro h
    have hcond : (cmd.mCmd = CECCommand.CEC_CONNECT ∨
        cmd.mCmd = CECCommand.CEC_DISCONNECT) ∧ st.mInExec := by
      exact ⟨h.2, by rw [h.1]⟩
    simp only [PushWaitCmd]
    rw [if_pos hcond]
    exact ⟨rfl, rfl⟩
  · intro h
    have hcond : ¬((cmd.mCmd = CECCommand.CEC_CONNECT ∨
        cmd.mCmd = CECCommand.CEC_DISCONNECT) ∧ st.mInExec) := by
      intro hc
      exact h ⟨hc.2, hc.1⟩
    simp only [PushWaitCmd]
    rw [if_neg hcond]
    exact ⟨rfl, rfl⟩

/-- Witness for C9: a CEC_CONNECT command synchronously submitted while
inside exec lands on the exec-reentrant queue with its fresh serial, and
the worker queue is untouched. -/
theorem pushWaitCmd_routing_witness :
    (PushWaitCmd stExec (cCmd.mk4 CECCommand.CEC_CONNECT (-1) none "") 1).1.mExecQueue =
        stExec.mExecQueue ++
          [{ (cCmd.mk4 CECCommand.CEC_CONNECT (-1) none "") with
              mSerial := (getSerial (cCmd.mk4 CECCommand.CEC_CONNECT (-1) none "") 1).1 }] ∧
      (PushWaitCmd stExec (cCmd.mk4 CECCommand.CEC_CONNECT (-1) none "") 1).1.mWorkerQueue =
        stExec.mWorkerQueue :=
  (pushWaitCmd_routing stExec (cCmd.mk4 CECCommand.CEC_CONNECT (-1) none "") 1).1
    ⟨rfl, Or.inl rfl⟩

/-- C10: submitting a command list while the adapter handle is null logs an
error and leaves the worker queue (indeed the whole engine state)
unchanged - the list is dropped, not deferred - whereas a single command
submitted through PushCmd is appended to the worker queue regardless of
connection state. -/
theorem pushCmdQueue_drops_when_disconnected (st : RemoteState) (cs : List cCmd)
    (c : cCmd) (h : st.mCECAdapter = none) :
    (PushCmdQueue st cs).1 = st ∧
      (PushCmdQueue st cs).2 =
        [(LogLevel.error, "PushCmdQueue CEC Adapter disconnected")] ∧
      (PushCmd st c).mWorkerQueue = st.mWorkerQueue ++ [c] := by
  have hn : st.mCECAdapter.isNone := by
    rw [h]; rfl
  refine ⟨?_, ?_, ?_⟩
  · simp [PushCmdQueue, hn]
  · simp [PushCmdQueue, hn]
  · simp [PushCmd]

/-- Witness for C10 on a concrete disconnected state: a two-command list is
dropped with an error log while PushCmd still appends. -/
theorem pushCmdQueue_drops_when_disconnected_witness :
    (PushCmdQueue stAlert [cCmd.mk4 CECCommand.CEC_MAKEACTIVE (-1) none "",
        cCmd.mk4 CECCommand.CEC_MAKEINACTIVE (-1) none ""]).1 = stAlert ∧
      (PushCmdQueue stAlert [cCmd.mk4 CECCommand.CEC_MAKEACTIVE (-1) none "",
          cCmd.mk4 CECCommand.CEC_MAKEINACTIVE (-1) none ""]).2 =
        [(LogLevel.error, "PushCmdQueue CEC Adapter disconnected")] ∧
      (PushCmd stAlert (cCmd.mk4 CECCommand.CEC_TEXTVIEWON (-1) none "")).mWorkerQueue =
        stAlert.mWorkerQueue ++ [cCmd.mk4 CECCommand.CEC_TEXTVIEWON (-1) none ""] :=
  pushCmdQueue_drops_when_disconnected stAlert
    [cCmd.mk4 CECCommand.CEC_MAKEACTIVE (-1) none "",
      cCmd.mk4 CECCommand.CEC_MAKEINACTIVE (-1) none ""]
    (cCmd.mk4 CECCommand.CEC_TEXTVIEWON (-1) none "") rfl

theorem lastMatchFold_cons (a : Adapter) (phys : Nat) (j : Nat) (js : List Nat) (acc : Int) :
    lastMatchFold a phys (j :: js) acc =
      lastMatchFold a phys js
        (if a.active j ∧ phys = a.physAddrOf j then (j : Int) else acc) := by
  rfl

theorem lastMatchFold_no_match (a : Adapter) (phys : Nat) (js : List Nat) :
    ∀ acc : Int, (∀ j ∈ js, ¬(a.active j = true ∧ phys = a.physAddrOf j)) →
      lastMatchFold a phys js acc = acc := by
  induction js with
  | nil => intro acc _; rfl
  | cons j rest ih =>
    intro acc h
    rw [lastMatchFold_cons]
    have hj : ¬(a.active j = true ∧ phys = a.physAddrOf j) := h j (by simp)
    rw [if_neg hj]
    exact ih acc (fun j2 hj2 => h j2 (by simp [hj2]))

theorem lastMatchFold_mem (a : Adapter) (phys : Nat) (js : List Nat) :
    ∀ acc : Int, (∃ j ∈ js, a.active j = true ∧ phys = a.physAddrOf j) →
      ∃ j ∈ js, (a.active j = true ∧ phys = a.physAddrOf j) ∧
        lastMatchFold a phys js acc = (j : Int) := by
  induction js with
  | nil => intro acc h; simp at h
  | cons j rest ih =>
    intro acc hex
    by_cases hrest : ∃ j2 ∈ rest, a.active j2 = true ∧ phys = a.physAddrOf j2
    · rcases ih (if a.active j ∧ phys = a.physAddrOf j then (j : Int) else acc) hrest with
        ⟨j2, hm, hmatch, heq⟩
      refine ⟨j2, by simp [hm], hmatch, ?_⟩
      rw [lastMatchFold_cons]
      exact heq
    · have hnone : ∀ j2 ∈ rest, ¬(a.active j2 = true ∧ phys = a.physAddrOf j2) := by
        intro j2 hj2 hc
        exact hrest ⟨j2, hj2, hc⟩
      have hj : a.active j = true ∧ phys = a.physAddrOf j := by
        rcases hex with ⟨j2, hj2, hc⟩
        rcases List.mem_cons.mp hj2 with h | h
        · rw [h] at hc; exact hc
        · exact absurd hc (hnone j2 h)
      refine ⟨j, by simp, hj, ?_⟩
      rw [lastMatchFold_cons, if_pos hj]
      exact lastMatchFold_no_match a phys rest ((j : Int)) hnone

theorem physQueries_nil (a : Adapter) : physQueries a [] = [] := by
  rfl

theorem physQueries_cons (a : Adapter) (j : Nat) (js : List Nat) :
    physQueries a (j :: js) =
      (if a.active j then [BusQuery.getDevicePhysicalAddress j] else []) ++ physQueries a js := by
  by_cases h : a.active j <;> simp [physQueries, h]

theorem scanSlots_no_exact (a : Adapter) (phys : Nat) (defined : Int) (js : List Nat) :
    ∀ st : ScanState,
      (∀ j ∈ js, ¬(a.active j = true ∧ phys = a.physAddrOf j ∧ defined = (j : Int))) →
      scanSlots a phys defined js st =
        ⟨st.ret, lastMatchFold a phys js st.found, lastMatchFold a phys js st.used,
          st.queries ++ physQueries a js, st.visited ++ js⟩ := by
  induction js with
  | nil =>
    intro st _
    cases st
    simp [scanSlots, lastMatchFold, physQueries]
  | cons j rest ih =>
    intro st h
    have hrest : ∀ j2 ∈ rest,
        ¬(a.active j2 = true ∧ phys = a.physAddrOf j2 ∧ defined = (j2 : Int)) :=
      fun j2 hj2 => h j2 (by simp [hj2])
    by_cases ha : a.active j = true
    · by_cases hm : phys = a.physAddrOf j
      · have hne : ¬(defined = (j : Int)) := by
          intro hd
          exact h j (by simp) ⟨ha, hm, hd⟩
        rw [show scanSlots a phys defined (j :: rest) st =
            scanSlots a phys defined rest
              ⟨st.ret, (j : Int), (j : Int),
                st.queries ++ [BusQuery.getDevicePhysicalAddress j],
                st.visited ++ [j]⟩ by
          simp [scanSlots, ha, hm, hne]]
        rw [ih _ hrest]
        simp [lastMatchFold_cons, ha, hm, physQueries_cons]
      · rw [show scanSlots a phys defined (j :: rest) st =
            scanSlots a phys defined rest
              ⟨st.ret, st.found, st.used,
                st.queries ++ [BusQuery.getDevicePhysicalAddress j],
                st.visited ++ [j]⟩ by
          simp [scanSlots, ha, hm]]
        rw [ih _ hrest]
        simp [lastMatchFold_cons, ha, hm, physQueries_cons]
    · rw [show scanSlots a phys defined (j :: rest) st =
          scanSlots a phys defined rest
            ⟨st.ret, st.found, st.used, st.queries, st.visited ++ [j]⟩ by
        simp [scanSlots, ha]]
      rw [ih _ hrest]
      simp [lastMatchFold_cons, ha, physQueries_cons]

theorem scanSlots_exact (a : Adapter) (phys : Nat) (defined : Int) (jd : Nat)
    (h2 : a.active jd = true) (h3 : phys = a.physAddrOf jd) (h4 : defined = (jd : Int)) :
    ∀ (js1 js2 : List Nat) (st : ScanState),
      (∀ j ∈ js1, ¬(a.active j = true ∧ phys = a.physAddrOf j ∧ defined = (j : Int))) →
      scanSlots a phys defined (js1 ++ jd :: js2) st =
        ⟨some (jd : Int), (jd : Int), (jd : Int),
          st.queries ++ physQueries a js1 ++ [BusQuery.getDevicePhysicalAddress jd],
          st.visited ++ js1 ++ [jd]⟩ := by
  intro js1
  induction js1 with
  | nil =>
    intro js2 st _
    simp only [List.nil_append]
    simp [scanSlots, h2, ← h3, h4, physQueries_nil]
  | cons j js1 ih =>
    intro js2 st h
    have hrest : ∀ j2 ∈ js1,
        ¬(a.active j2 = true ∧ phys = a.physAddrOf j2 ∧ defined = (j2 : Int)) :=
      fun j2 hj2 => h j2 (by simp [hj2])
    by_cases ha : a.active j = true
    · by_cases hm : phys = a.physAddrOf j
      · have hne : ¬(defined = (j : Int)) := by
          intro hd
          exact h j (by simp) ⟨ha, hm, hd⟩
        rw [show scanSlots a phys defined ((j :: js1) ++ jd :: js2) st =
            scanSlots a phys defined (js1 ++ jd :: js2)
              ⟨st.ret, (j : Int), (j : Int),
                st.queries ++ [BusQuery.getDevicePhysicalAddress j],
                st.visited ++ [j]⟩ by
          simp [scanSlots, ha, hm, hne]]
        rw [ih js2 _ hrest]
        simp [ha, physQueries_cons]
      · rw [show scanSlots a phys defined ((j :: js1) ++ jd :: js2) st =
            scanSlots a phys defined (js1 ++ jd :: js2)
              ⟨st.ret, st.found, st.used,
                st.queries ++ [BusQuery.getDevicePhysicalAddress j],
                st.visited ++ [j]⟩ by
          simp [scanSlots, ha, hm]]
        rw [ih js2 _ hrest]
        simp [ha, physQueries_cons]
    · rw [show scanSlots a phys defined ((j :: js1) ++ jd :: js2) st =
          scanSlots a phys defined (js1 ++ jd :: js2)
            ⟨st.ret, st.found, st.used, st.queries, st.visited ++ [j]⟩ by
        simp [scanSlots, ha]]
      rw [ih js2 _ hrest]
      simp [ha, physQueries_cons]

theorem range_split (n m : Nat) (h : m < n) :
    List.range n = List.range m ++ m :: (List.range (n - (m + 1))).map (m + 1 + ·) := by
  have h1 : n = (m + 1) + (n - (m + 1)) := by omega
  nth_rewrite 1 [h1]
  rw [List.range_add, List.range_succ]
  simp

/-- C6: during resolution with a non-zero physical address and an unset
cache, (i) when some active slot matches the target physical address and
equals the configured logical address, that slot is returned and the scan
stops there (slots after it are never examined); (ii) when no slot is an
exact match but some active slot matches the physical address, the scan
examines all 16 slots 0..15 and returns one of the matching slots as the
fallback result. -/
theorem getLogical_exact_match_short_circuits_fallback_scans_all (a : Adapter)
    (dev : cCECDevice)
    (hused : dev.mLogicalAddressUsed = CECDEVICE_UNKNOWN)
    (hphys : dev.mPhysicalAddress ≠ 0) :
    (∀ jd : Nat, jd < 16 → a.active jd = true → dev.mPhysicalAddress = a.physAddrOf jd →
      dev.mLogicalAddressDefined = (jd : Int) →
      (getLogical (some a) dev).addr = (jd : Int) ∧
        (getLogical (some a) dev).visited = List.range (jd + 1)) ∧
    ((∀ j : Nat, j < 16 →
        ¬(a.active j = true ∧ dev.mPhysicalAddress = a.physAddrOf j ∧
          dev.mLogicalAddressDefined = (j : Int))) →
      (∃ jm : Nat, jm < 16 ∧ a.active jm = true ∧ dev.mPhysicalAddress = a.physAddrOf jm) →
      (getLogical (some a) dev).visited = List.range 16 ∧
        ∃ j : Nat, j < 16 ∧ a.active j = true ∧ dev.mPhysicalAddress = a.physAddrOf j ∧
          (getLogical (some a) dev).addr = (j : Int)) := by
  have hget : getLogical (some a) dev =
      getLogicalPost a dev
        (scanSlots a dev.mPhysicalAddress dev.mLogicalAddressDefined slots16
          ⟨none, CECDEVICE_UNKNOWN, CECDEVICE_UNKNOWN,
            [BusQuery.getActiveDevices], []⟩) := by
    simp [getLogical, hused, hphys]
  constructor
  · intro jd hjd ha hm hd
    have hpre : ∀ j ∈ List.range jd,
        ¬(a.active j = true ∧ dev.mPhysicalAddress = a.physAddrOf j ∧
          dev.mLogicalAddressDefined = (j : Int)) := by
      intro j hj hc
      have hjlt : j < jd := List.mem_range.mp hj
      have hcast : (j : Int) = (jd : Int) := by rw [← hc.2.2, hd]
      have : j = jd := Nat.cast_inj.mp hcast
      omega
    have hscan := scanSlots_exact a dev.mPhysicalAddress dev.mLogicalAddressDefined jd
      ha hm hd (List.range jd) ((List.range (16 - (jd + 1))).map (jd + 1 + ·))
      ⟨none, CECDEVICE_UNKNOWN, CECDEVICE_UNKNOWN, [BusQuery.getActiveDevices], []⟩ hpre
    rw [hget]
    simp only [slots16]
    rw [range_split 16 jd hjd, hscan]
    simp [getLogicalPost, List.range_succ]
  · intro hnoex hex
    have hall : ∀ j ∈ List.range 16,
        ¬(a.active j = true ∧ dev.mPhysicalAddress = a.physAddrOf j ∧
          dev.mLogicalAddressDefined = (j : Int)) :=
      fun j hj => hnoex j (List.mem_range.mp hj)
    have hscan := scanSlots_no_exact a dev.mPhysicalAddress dev.mLogicalAddressDefined
      (List.range 16)
      ⟨none, CECDEVICE_UNKNOWN, CECDEVICE_UNKNOWN, [BusQuery.getActiveDevices], []⟩ hall
    have hexmem : ∃ j ∈ List.range 16,
        a.active j = true ∧ dev.mPhysicalAddress = a.physAddrOf j := by
      rcases hex with ⟨jm, hjm, hja, hjp⟩
      exact ⟨jm, List.mem_range.mpr hjm, hja, hjp⟩
    rcases lastMatchFold_mem a dev.mPhysicalAddress (List.range 16) CECDEVICE_UNKNOWN hexmem
      with ⟨j, hjmem, hjmatch, hlmf⟩
    have hjne : lastMatchFold a dev.mPhysicalAddress (List.range 16) CECDEVICE_UNKNOWN ≠
        CECDEVICE_UNKNOWN := by
      rw [hlmf]
      have hnn : (0 : Int) ≤ (j : Int) := Int.natCast_nonneg j
      simp only [CECDEVICE_UNKNOWN]
      omega
    rw [hget]
    simp only [slots16]
    rw [hscan]
    constructor
    · simp [getLogicalPost, hjne]
    · refine ⟨j, List.mem_range.mp hjmem, hjmatch.1, hjmatch.2, ?_⟩
      have hjne2 : ((j : Nat) : Int) ≠ CECDEVICE_UNKNOWN := by
        rw [← hlmf]
        exact hjne
      simp [getLogicalPost, hlmf, hjne2]

/-- Witness for C6 on the concrete two-match bus: slot 3 is a non-exact
match, slot 5 the exact match, so resolution returns 5 having scanned only
slots 0..5. -/
theorem getLogical_exact_match_short_circuits_fallback_scans_all_witness :
    (getLogical (some busTwoMatches) devExact).addr = ((5 : Nat) : Int) ∧
      (getLogical (some busTwoMatches) devExact).visited = List.range 6 :=
  (getLogical_exact_match_short_circuits_fallback_scans_all busTwoMatches devExact
      rfl (by decide)).1 5 (by decide) (by decide) (by decide) (by decide)

/-- Counterexample to C7: a descriptor whose used logical address is cached
as 3 does not resolve to 3 when the adapter handle is null - the call
returns the unknown sentinel instead of the cached value. -/
theorem getLogical_cached_null_adapter_returns_unknown :
    (getLogical none ⟨0x1000, 0, 3⟩).addr ≠
      (⟨0x1000, 0, 3⟩ : cCECDevice).mLogicalAddressUsed := by
  decide

/-- C7 (amended): once the used logical address of a descriptor is cached
(not the unknown sentinel), every subsequent resolution call made while an
adapter handle is present returns that cached value with no bus query and
leaves the descriptor unchanged - so the property persists across repeated
calls; a call made with a null adapter handle instead returns the unknown
sentinel (also without any bus query). -/
theorem getLogical_cache_hit_stable (a : Adapter) (dev : cCECDevice)
    (h : dev.mLogicalAddressUsed ≠ CECDEVICE_UNKNOWN) :
    getLogical (some a) dev = ⟨dev.mLogicalAddressUsed, dev, [], []⟩ ∧
      getLogical (some a) ((getLogical (some a) dev).dev) =
        ⟨dev.mLogicalAddressUsed, dev, [], []⟩ ∧
      (getLogical none dev).addr = CECDEVICE_UNKNOWN ∧
      (getLogical none dev).queries = [] := by
  have h1 : getLogical (some a) dev = ⟨dev.mLogicalAddressUsed, dev, [], []⟩ := by
    simp [getLogical, h]
  refine ⟨h1, ?_, rfl, rfl⟩
  rw [h1]
  exact h1

/-- Witness for C7 on a concrete cached descriptor over the empty bus:
resolution returns the cached address 3 with no queries, twice in a row. -/
theorem getLogical_cache_hit_stable_witness :
    getLogical (some emptyBusAdapter) ⟨0x1000, 0, 3⟩ =
      ⟨(⟨0x1000, 0, 3⟩ : cCECDevice).mLogicalAddressUsed, ⟨0x1000, 0, 3⟩, [], []⟩ ∧
      getLogical (some emptyBusAdapter)
          ((getLogical (some emptyBusAdapter) ⟨0x1000, 0, 3⟩).dev) =
        ⟨(⟨0x1000, 0, 3⟩ : cCECDevice).mLogicalAddressUsed, ⟨0x1000, 0, 3⟩, [], []⟩ ∧
      (getLogical none ⟨0x1000, 0, 3⟩).addr = CECDEVICE_UNKNOWN ∧
      (getLogical none ⟨0x1000, 0, 3⟩).queries = [] :=
  getLogical_cache_hit_stable emptyBusAdapter ⟨0x1000, 0, 3⟩ (by decide)

/-- C1 (code bug evaluation): a power-on command whose device cannot be
resolved (physical address 0x1000, no configured logical address, empty
bus) is not skipped with only a log: the dispatch case falls into the else
branch and WaitForPowerStatus issues a GetDevicePowerStatus bus query for
the sentinel address CECDEVICE_UNKNOWN. No bus power request is made. -/
theorem poweron_unresolved_still_queries_power_status :
    actionPowerOn (some emptyBusAdapter) powerOnCmdA =
      ⟨deviceA,
        [BusQuery.getActiveDevices, BusQuery.getDevicePowerStatus CECDEVICE_UNKNOWN],
        [(LogLevel.info, "Power on")]⟩ := by
  rfl

end cecplugin
